import Mathlib

/-!
Verification of the auth/session/token core of the `prime-web-solutions`
repository: the token decoder (`decodeJwtPayload`), tenant identity
validation (`validateProjectId` / `validateSessionProject`), the
localStorage-backed session store (`storeSession` / `getStoredSession`),
the auth service (`signOut`, `isAuthenticated`, `getAccessToken`), the
token cache of the authenticated HTTP client (`getValidToken`), the 401
retry logic of `AuthenticatedClient.request`, and the `LayoutProtection`
route guard.

The JavaScript platform primitives the code relies on are embedded
concretely: `JSON.parse` / `JSON.stringify` as an executable JSON codec
over an AST (`Json`), `atob` as forgiving base64 decoding, and
`new Date(iso).getTime()` as an ISO-8601 timestamp reader. JavaScript
truthiness on the values the code actually tests is modelled explicitly
(`jsFalsy`, option-valued strings). Number literals are kept as raw
lexemes (the code never does arithmetic on decoded JSON numbers, only
`typeof` checks), and response bodies of the HTTP client are modelled as
envelope records per the backend contract.
-/

set_option maxHeartbeats 1000000

/-! ## JSON values

The AST produced by the embedded `JSON.parse`. Numbers keep their raw
lexeme: the source only ever checks `typeof` on decoded values, never
their numeric magnitude. Objects keep every key/value pair in input
order; property access (`jsGetProp`) takes the last binding for a key,
which is what a JavaScript object built by `JSON.parse` exposes. -/
inductive Json where
  | null : Json
  | bool (b : Bool) : Json
  | num (raw : String) : Json
  | str (s : String) : Json
  | arr (items : List Json) : Json
  | obj (fields : List (String × Json)) : Json

/-! ## Character classes and lexical helpers -/

def isDig (c : Char) : Bool := '0' ≤ c && c ≤ '9'

def jsonWsChar (c : Char) : Bool := c == ' ' || c == '\t' || c == '\n' || c == '\r'

/-- Characters that can occur anywhere in a JSON number lexeme. -/
def numChar (c : Char) : Bool :=
  isDig c || c == '-' || c == '+' || c == '.' || c == 'e' || c == 'E'

def skipWs : List Char → List Char
  | [] => []
  | c :: r => if jsonWsChar c then skipWs r else c :: r

def hexVal (c : Char) : Option Nat :=
  let n := c.toNat
  if 48 ≤ n ∧ n ≤ 57 then some (n - 48)
  else if 97 ≤ n ∧ n ≤ 102 then some (n - 87)
  else if 65 ≤ n ∧ n ≤ 70 then some (n - 55)
  else none

def lowHexDigit (n : Nat) : Char :=
  if n < 10 then Char.ofNat ('0'.toNat + n) else Char.ofNat ('a'.toNat + n - 10)

/-- The two-character short escapes `JSON.parse` accepts after a backslash. -/
def shortUnescape (c : Char) : Option Char :=
  if c = '"' then some '"'
  else if c = '\\' then some '\\'
  else if c = '/' then some '/'
  else if c = 'b' then some (Char.ofNat 8)
  else if c = 'f' then some (Char.ofNat 12)
  else if c = 'n' then some '\n'
  else if c = 'r' then some '\r'
  else if c = 't' then some '\t'
  else none

/-- Body of a JSON string after the opening quote: decoded characters plus
the input left after the closing quote. Unescaped control characters are
rejected, as `JSON.parse` rejects them; a lone `\uXXXX` surrogate is out
of the modelled domain (Unicode scalar strings) and also rejected. -/
def parseStrAux : List Char → Option (List Char × List Char)
  | [] => none
  | c :: r =>
    if c = '"' then some ([], r)
    else if c = '\\' then
      match r with
      | [] => none
      | e :: r2 =>
        if e = 'u' then
          match r2 with
          | h1 :: h2 :: h3 :: h4 :: r3 =>
            match hexVal h1, hexVal h2, hexVal h3, hexVal h4 with
            | some a, some b, some c3, some d =>
              let n := ((a * 16 + b) * 16 + c3) * 16 + d
              if n < 0xd800 ∨ 0xe000 ≤ n then
                match parseStrAux r3 with
                | some (cs, rest) => some (Char.ofNat n :: cs, rest)
                | none => none
              else none
            | _, _, _, _ => none
          | _ => none
        else
          match shortUnescape e with
          | some ch =>
            match parseStrAux r2 with
            | some (cs, rest) => some (ch :: cs, rest)
            | none => none
          | none => none
    else if c.toNat < 0x20 then none
    else
      match parseStrAux r with
      | some (cs, rest) => some (c :: cs, rest)
      | none => none

/-! Number lexeme validation: the RFC 8259 grammar `JSON.parse` enforces
(`-?(0|[1-9][0-9]*)(\.[0-9]+)?([eE][+-]?[0-9]+)?`). -/

def numIntPart : List Char → Option (List Char)
  | [] => none
  | c :: r =>
    if c = '0' then some r
    else if '1' ≤ c && c ≤ '9' then some (r.dropWhile isDig)
    else none

def numFracPart : List Char → Option (List Char)
  | [] => some []
  | c :: r =>
    if c = '.' then
      match r with
      | d :: _ => if isDig d then some (r.dropWhile isDig) else none
      | [] => none
    else some (c :: r)

def numExpPart : List Char → Option (List Char)
  | [] => some []
  | c :: r =>
    if c = 'e' ∨ c = 'E' then
      let r2 := match r with
        | s :: r3 => if s = '+' ∨ s = '-' then r3 else s :: r3
        | [] => []
      match r2 with
      | d :: _ => if isDig d then some (r2.dropWhile isDig) else none
      | [] => none
    else some (c :: r)

def numWf (cs : List Char) : Bool :=
  let cs1 := match cs with
    | c :: r => if c = '-' then r else c :: r
    | [] => []
  match numIntPart cs1 with
  | none => false
  | some r1 =>
    match numFracPart r1 with
    | none => false
    | some r2 =>
      match numExpPart r2 with
      | some [] => true
      | _ => false

/-! ## The parser

Structural on a fuel counter; `jsonParse` supplies more fuel than the
input could ever consume, so fuel exhaustion is unreachable from the
top-level entry point. -/

mutual
def parseValue : Nat → List Char → Option (Json × List Char)
  | 0, _ => none
  | fuel + 1, cs =>
    match skipWs cs with
    | [] => none
    | c :: r =>
      if c = 'n' then
        match r with
        | 'u' :: 'l' :: 'l' :: r2 => some (.null, r2)
        | _ => none
      else if c = 't' then
        match r with
        | 'r' :: 'u' :: 'e' :: r2 => some (.bool true, r2)
        | _ => none
      else if c = 'f' then
        match r with
        | 'a' :: 'l' :: 's' :: 'e' :: r2 => some (.bool false, r2)
        | _ => none
      else if c = '"' then
        match parseStrAux r with
        | some (cs2, r2) => some (.str (String.mk cs2), r2)
        | none => none
      else if c = '[' then
        match skipWs r with
        | [] => none
        | c2 :: r2 =>
          if c2 = ']' then some (.arr [], r2)
          else
            match parseElems fuel (c2 :: r2) with
            | some (vs, r3) => some (.arr vs, r3)
            | none => none
      else if c = '\x7b' then
        match skipWs r with
        | [] => none
        | c2 :: r2 =>
          if c2 = '\x7d' then some (.obj [], r2)
          else
            match parseFields fuel (c2 :: r2) with
            | some (fs, r3) => some (.obj fs, r3)
            | none => none
      else if c = '-' ∨ isDig c then
        let tok := (c :: r).takeWhile numChar
        let r2 := (c :: r).dropWhile numChar
        if numWf tok then some (.num (String.mk tok), r2) else none
      else none

def parseElems : Nat → List Char → Option (List Json × List Char)
  | 0, _ => none
  | fuel + 1, cs =>
    match parseValue fuel cs with
    | none => none
    | some (v, r) =>
      match skipWs r with
      | [] => none
      | c :: r2 =>
        if c = ',' then
          match parseElems fuel r2 with
          | some (vs, r3) => some (v :: vs, r3)
          | none => none
        else if c = ']' then some ([v], r2)
        else none

def parseFields : Nat → List Char → Option (List (String × Json) × List Char)
  | 0, _ => none
  | fuel + 1, cs =>
    match skipWs cs with
    | [] => none
    | c :: r =>
      if c = '"' then
        match parseStrAux r with
        | none => none
        | some (kcs, r1) =>
          match skipWs r1 with
          | [] => none
          | c2 :: r2 =>
            if c2 = ':' then
              match parseValue fuel r2 with
              | none => none
              | some (v, r3) =>
                match skipWs r3 with
                | [] => none
                | c3 :: r4 =>
                  if c3 = ',' then
                    match parseFields fuel r4 with
                    | some (fs, r5) => some ((String.mk kcs, v) :: fs, r5)
                    | none => none
                  else if c3 = '\x7d' then some ([(String.mk kcs, v)], r4)
                  else none
            else none
      else none
end

/-- The embedded `JSON.parse`: `none` models a thrown `SyntaxError`. -/
def jsonParse (s : String) : Option Json :=
  match parseValue (s.length + 1) s.data with
  | some (j, r) => if skipWs r = [] then some j else none
  | none => none

/-! ## The serializer

`JSON.stringify` on the values the session store writes: no added
whitespace, `"`/`\`/control characters escaped (`\b \t \n \f \r` short
forms, `\u00xx` for the rest), number lexemes emitted verbatim. -/

def escChar (c : Char) : List Char :=
  if c = '"' then ['\\', '"']
  else if c = '\\' then ['\\', '\\']
  else if c = Char.ofNat 8 then ['\\', 'b']
  else if c = '\t' then ['\\', 't']
  else if c = '\n' then ['\\', 'n']
  else if c = Char.ofNat 12 then ['\\', 'f']
  else if c = '\r' then ['\\', 'r']
  else if c.toNat < 0x20 then
    ['\\', 'u', '0', '0', lowHexDigit (c.toNat / 16), lowHexDigit (c.toNat % 16)]
  else [c]

def escString (s : String) : List Char :=
  '"' :: (s.data.flatMap escChar ++ ['"'])

mutual
def stringifyV : Json → List Char
  | .num raw => raw.data
  | .str s => escString s
  | .arr items => '[' :: (stringifyItems items ++ [']'])
  | .obj fields => '\x7b' :: (stringifyFields fields ++ ['\x7d'])
  | .bool b => if b then ['t', 'r', 'u', 'e'] else ['f', 'a', 'l', 's', 'e']
  | .null => ['n', 'u', 'l', 'l']

def stringifyItems : List Json → List Char
  | [] => []
  | [v] => stringifyV v
  | v :: w :: rest => stringifyV v ++ ',' :: stringifyItems (w :: rest)

def stringifyFields : List (String × Json) → List Char
  | [] => []
  | [(k, v)] => escString k ++ ':' :: stringifyV v
  | (k, v) :: f :: rest => escString k ++ ':' :: stringifyV v ++ ',' :: stringifyFields (f :: rest)
end

/-- The embedded `JSON.stringify`. -/
def jsonStringify (j : Json) : String := String.mk (stringifyV j)

/-! Well-formed values: every number lexeme is a valid JSON number
lexeme (which also pins its character set and head). Everything
`JSON.parse` produces, and every value the session store serializes, is
well-formed; the predicate only rules out `Json.num` ASTs built from
junk lexemes, which no JavaScript value corresponds to. -/

def numRawOk (raw : String) : Bool :=
  numWf raw.data && raw.data.all numChar &&
    (match raw.data with
     | c :: _ => c = '-' || isDig c
     | [] => false)

mutual
def jsonWf : Json → Bool
  | .null => true
  | .bool _ => true
  | .num raw => numRawOk raw
  | .str _ => true
  | .arr items => jsonWfItems items
  | .obj fields => jsonWfFields fields

def jsonWfItems : List Json → Bool
  | [] => true
  | v :: rest => jsonWf v && jsonWfItems rest

def jsonWfFields : List (String × Json) → Bool
  | [] => true
  | (_, v) :: rest => jsonWf v && jsonWfFields rest
end

/-! ## JavaScript value semantics on decoded JSON -/

/-- Property read `v.key` on a decoded JSON value: defined (`some`) only
for object values holding the key; `none` models `undefined`. A
duplicate key resolves to its last occurrence, as in a JavaScript
object built by `JSON.parse`. -/
def jsGetProp (v : Json) (key : String) : Option Json :=
  match v with
  | .obj fields => (fields.filter (fun f => f.1 = key)).getLast?.map (·.2)
  | _ => none

/-- Optional-chained read `v?.key` where `v` may itself be absent:
`undefined` and `null` short-circuit to `undefined`. -/
def jsOptProp (v : Option Json) (key : String) : Option Json :=
  match v with
  | none => none
  | some .null => none
  | some w => jsGetProp w key

/-- JavaScript truthiness of a decoded JSON value. A number lexeme is
falsy iff it denotes zero: for a well-formed lexeme that is exactly
"no digit 1..9 appears in the mantissa". -/
def jsFalsy (v : Json) : Bool :=
  match v with
  | .null => true
  | .bool b => !b
  | .str s => s = ""
  | .num raw =>
    let mant := raw.data.takeWhile (fun c => !(c = 'e' ∨ c = 'E'))
    mant.all (fun c => !('1' ≤ c && c ≤ '9'))
  | .arr _ => false
  | .obj _ => false

/-- Truthiness of a nullable string (`string | null | undefined`). -/
def strTruthy (s : Option String) : Bool :=
  match s with
  | some v => v ≠ ""
  | none => false

/-- No-number-continuation guard for a parse remainder. -/
def numStop (cs : List Char) : Bool :=
  match cs with
  | [] => true
  | c :: _ => !numChar c

/-! ## Forgiving base64 (`atob`)

WHATWG forgiving-base64 decode, which `atob` implements: ASCII
whitespace is removed, up to two trailing `=` are dropped when the
length is a multiple of four, a remainder of one character is an error,
any character outside the alphabet is an error, and leftover bits of a
final partial group are discarded. The decoded bytes come back as a
string of code points below 256, as `atob` returns. -/

def b64Val (c : Char) : Option Nat :=
  if 'A' ≤ c && c ≤ 'Z' then some (c.toNat - 'A'.toNat)
  else if 'a' ≤ c && c ≤ 'z' then some (c.toNat - 'a'.toNat + 26)
  else if '0' ≤ c && c ≤ '9' then some (c.toNat - '0'.toNat + 52)
  else if c = '+' then some 62
  else if c = '/' then some 63
  else none

def b64Groups : List Char → Option (List Nat)
  | [] => some []
  | [_] => none
  | [c1, c2] =>
    match b64Val c1, b64Val c2 with
    | some a, some b => some [a * 4 + b / 16]
    | _, _ => none
  | [c1, c2, c3] =>
    match b64Val c1, b64Val c2, b64Val c3 with
    | some a, some b, some c => some [a * 4 + b / 16, b % 16 * 16 + c / 4]
    | _, _, _ => none
  | c1 :: c2 :: c3 :: c4 :: rest =>
    match b64Val c1, b64Val c2, b64Val c3, b64Val c4, b64Groups rest with
    | some a, some b, some c, some d, some bytes =>
      some ((a * 4 + b / 16) :: (b % 16 * 16 + c / 4) :: (c % 4 * 64 + d) :: bytes)
    | _, _, _, _, _ => none

def asciiWs (c : Char) : Bool :=
  c = ' ' || c = '\t' || c = '\n' || c = Char.ofNat 12 || c = '\r'

def atob (s : String) : Option String :=
  let cs := s.data.filter (fun c => !asciiWs c)
  let cs :=
    if cs.length % 4 = 0 then
      match cs.reverse with
      | '=' :: '=' :: r => r.reverse
      | '=' :: r => r.reverse
      | _ => cs
    else cs
  if cs.length % 4 = 1 then none
  else (b64Groups cs).map (fun bytes => String.mk (bytes.map Char.ofNat))

/-! ## Timestamps (`new Date(x).getTime()`)

ISO-8601 timestamp strings of the shape the backend issues
(`toISOString` output `YYYY-MM-DDTHH:MM:SS.sssZ`, also without
milliseconds, and date-only `YYYY-MM-DD`) are mapped to epoch
milliseconds; everything else is out of the modelled domain and treated
as an invalid date (`NaN`). Years below 1600 are likewise out of the
modelled domain. -/

def leapYear (y : Nat) : Bool := (y % 4 = 0 && y % 100 ≠ 0) || y % 400 = 0

def daysInMonth (y m : Nat) : Nat :=
  if m = 2 then (if leapYear y then 29 else 28)
  else if m = 4 ∨ m = 6 ∨ m = 9 ∨ m = 11 then 30
  else 31

/-- Days from 0000-03-01 to the given civil date (valid for `y ≥ 1`). -/
def civilDays (y mo d : Nat) : Nat :=
  let y2 := y - (if mo ≤ 2 then 1 else 0)
  let era := y2 / 400
  let yoe := y2 % 400
  let mp := (mo + 9) % 12
  let doy := (153 * mp + 2) / 5 + d - 1
  let doe := yoe * 365 + yoe / 4 - yoe / 100 + doy
  era * 146097 + doe

def dateMillis (y mo d hh mi ss ms : Nat) : Int :=
  ((civilDays y mo d : Int) - (civilDays 1970 1 1 : Int)) * 86400000
    + hh * 3600000 + mi * 60000 + ss * 1000 + ms

def digVal (c : Char) : Nat := c.toNat - '0'.toNat

def readNAux : Nat → Nat → List Char → Option (Nat × List Char)
  | 0, acc, cs => some (acc, cs)
  | k + 1, acc, c :: cs => if isDig c then readNAux k (acc * 10 + digVal c) cs else none
  | _ + 1, _, [] => none

def isoTime (y mo d : Nat) : List Char → Option Int
  | [] => some (dateMillis y mo d 0 0 0 0)
  | 'T' :: r1 =>
    match readNAux 2 0 r1 with
    | some (hh, ':' :: r2) =>
      match readNAux 2 0 r2 with
      | some (mi, ':' :: r3) =>
        match readNAux 2 0 r3 with
        | some (ss, r4) =>
          if hh ≤ 23 && mi ≤ 59 && ss ≤ 59 then
            match r4 with
            | ['Z'] => some (dateMillis y mo d hh mi ss 0)
            | '.' :: r5 =>
              match readNAux 3 0 r5 with
              | some (ms, ['Z']) => some (dateMillis y mo d hh mi ss ms)
              | _ => none
            | _ => none
          else none
        | _ => none
      | _ => none
    | _ => none
  | _ => none

def isoMillis (s : String) : Option Int :=
  match readNAux 4 0 s.data with
  | some (y, '-' :: r1) =>
    match readNAux 2 0 r1 with
    | some (mo, '-' :: r2) =>
      match readNAux 2 0 r2 with
      | some (d, r3) =>
        if 1600 ≤ y && 1 ≤ mo && mo ≤ 12 && 1 ≤ d && d ≤ daysInMonth y mo then
          isoTime y mo d r3
        else none
      | _ => none
    | _ => none
  | _ => none

/-- An integer lexeme's value (used for `new Date(n)` on a decoded JSON
number; non-integral lexemes are out of the modelled domain). -/
def intLexeme : List Char → Option Int
  | '-' :: ds => if ds ≠ [] && ds.all isDig then
      some (-(ds.foldl (fun a c => a * 10 + digVal c) 0 : Nat)) else none
  | ds => if ds ≠ [] && ds.all isDig then
      some (ds.foldl (fun a c => a * 10 + digVal c) 0 : Nat) else none

/-- `new Date(v).getTime()` on a decoded JSON value (`none` = `NaN`):
strings parse as ISO timestamps, numbers are epoch milliseconds, `null`
and booleans coerce to 0/1, everything else is invalid. `none` input is
`new Date(undefined)`, which is invalid. -/
def jsToDateMillis (v : Option Json) : Option Int :=
  match v with
  | some (Json.str s) => isoMillis s
  | some (Json.num raw) => intLexeme raw.data
  | some Json.null => some 0
  | some (Json.bool b) => some (if b then 1 else 0)
  | _ => none

/-- `new Date(v) < new Date(nowMs)`: `false` whenever either side is an
invalid date, as NaN comparisons are. -/
def jsDateLt (v : Option Json) (now : Int) : Bool :=
  match jsToDateMillis v with
  | some m => decide (m < now)
  | none => false

/-! ## Token Decoder (`decodeJwtPayload`, `getProjectIdFromToken`)

Embedded from `src/lib/supabase.ts` and from the SDK auth service
(`packages/sdk-react/src/services/auth`): the two `decodeJwtPayload`
copies are textually identical; the two `getProjectIdFromToken` copies
differ in how they treat an empty-string claim, so both are embedded. -/

/-- `String.prototype.split` with a one-character separator: the
groups between separator occurrences, in order, empty groups included
(`"a..b"` gives `["a", "", "b"]`, `""` gives `[""]`). -/
def splitCharAux (sep : Char) : List Char → List (List Char)
  | [] => [[]]
  | c :: r =>
    let groups := splitCharAux sep r
    if c = sep then [] :: groups
    else
      match groups with
      | g :: gs => (c :: g) :: gs
      | [] => [[c]]

def jsSplit (sep : Char) (s : String) : List String :=
  (splitCharAux sep s.data).map String.mk

/-- `String.prototype.startsWith`. -/
def jsStartsWith (s pre : String) : Bool := pre.data.isPrefixOf s.data

/-- The two global `replace` calls on the middle segment: every dash
becomes a plus, then every underscore becomes a slash. -/
def b64UrlToB64 (s : String) : String :=
  String.mk ((s.data.map (fun c => if c = '-' then '+' else c)).map
    (fun c => if c = '_' then '/' else c))

/-- `decodeJwtPayload`: split on `'.'`; three segments or bust; then
`atob` and `JSON.parse` on the middle segment, with every failure
(wrong segment count, bad base64, bad JSON) caught and returned as
`null`. `some Json.null` is the successful parse of the text `null`. -/
def decodeJwtPayload (token : String) : Option Json :=
  match jsSplit '.' token with
  | [_, mid, _] =>
    match atob (b64UrlToB64 mid) with
    | some payload => jsonParse payload
    | none => none
  | _ => none

/-- `getProjectIdFromToken` of `src/lib/supabase.ts`:
`typeof appMetadata?.project_id === 'string' ? appMetadata.project_id : null`.
An empty-string claim is returned as a (decoded) claim. -/
def getProjectIdFromTokenSb (accessToken : String) : Option String :=
  match decodeJwtPayload accessToken with
  | none => none
  | some payload =>
    if jsFalsy payload then none
    else
      match jsOptProp (jsGetProp payload "app_metadata") "project_id" with
      | some (Json.str s) => some s
      | _ => none

/-- `getProjectIdFromToken` of the SDK auth service:
`if (appMetadata?.project_id && typeof appMetadata.project_id === 'string')`.
The truthiness conjunct makes an empty-string claim come back as `null`. -/
def getProjectIdFromTokenSvc (accessToken : String) : Option String :=
  match decodeJwtPayload accessToken with
  | none => none
  | some payload =>
    if jsFalsy payload then none
    else
      match jsOptProp (jsGetProp payload "app_metadata") "project_id" with
      | some (Json.str s) => if s ≠ "" then some s else none
      | _ => none

/-! ## Identity Validator (`validateProjectId`, `validateSessionProject`) -/

/-- `validateProjectId` of `src/lib/supabase.ts`; `expectedProjectId`
is the `NEXT_PUBLIC_PROJECT_ID` environment value (`none` = unset). -/
def validateProjectId (expectedProjectId : Option String) (accessToken : String) : Bool :=
  if strTruthy expectedProjectId = false || expectedProjectId == some "dev" then true
  else
    let tokenProjectId := getProjectIdFromTokenSb accessToken
    if strTruthy tokenProjectId = false then true
    else tokenProjectId == expectedProjectId

/-- `validateSessionProject` of the SDK `ZyloProvider`; `configProjectId`
is `config.projectId`. Applied to the session's access token. -/
def validateSessionProject (configProjectId : Option String) (accessToken : String) : Bool :=
  if strTruthy configProjectId = false || configProjectId == some "dev" then true
  else
    let tokenProjectId := getProjectIdFromTokenSvc accessToken
    if strTruthy tokenProjectId = false then true
    else if tokenProjectId != configProjectId then false
    else true

/-- Modelled from the spec: the reference Identity Validator of the
claim being checked — validation is disabled when the expected tenant is
unset (absent or empty, per the configuration surface) or the `dev`
sentinel; otherwise a decoded tenant claim (the spec's Token Decoder
yields the nested claim whenever it is present and a string) must equal
the expected tenant under case-sensitive string equality, and an
undecodable claim passes. -/
def validateRefSpec (expected : Option String) (accessToken : String) : Bool :=
  if expected = none || expected == some "" || expected == some "dev" then true
  else
    match getProjectIdFromTokenSb accessToken with
    | some claim => claim == expected.getD ""
    | none => true

/-- The amended reference: identical except that a decoded tenant claim
that is the empty string is treated like an absent claim (fails open). -/
def validateRefAmended (expected : Option String) (accessToken : String) : Bool :=
  if expected = none || expected == some "" || expected == some "dev" then true
  else
    match getProjectIdFromTokenSb accessToken with
    | some claim => if claim = "" then true else claim == expected.getD ""
    | none => true

/-! ## Session shape and the Session Store

`ZyloAuthSession` / `ZyloAppUser` as in the SDK contracts; optional
fields serialize only when present (`JSON.stringify` drops `undefined`).
The store is `localStorage` under the three `zylo_*` keys; `broken`
models an environment whose storage operations throw (every access is
wrapped in `try`/`catch` in the source). -/

structure ZyloAppUser where
  id : String
  email : String
  displayName : Option String
  photoURL : Option String
  emailVerified : Bool
  projectId : String
  createdAt : String
  updatedAt : String
  metadata : Option Json

structure ZyloAuthSession where
  user : ZyloAppUser
  accessToken : String
  refreshToken : String
  expiresAt : String

def userToJson (u : ZyloAppUser) : Json :=
  Json.obj ([("id", Json.str u.id), ("email", Json.str u.email)]
    ++ (match u.displayName with | some s => [("displayName", Json.str s)] | none => [])
    ++ (match u.photoURL with | some s => [("photoURL", Json.str s)] | none => [])
    ++ [("emailVerified", Json.bool u.emailVerified),
        ("projectId", Json.str u.projectId),
        ("createdAt", Json.str u.createdAt),
        ("updatedAt", Json.str u.updatedAt)]
    ++ (match u.metadata with | some j => [("metadata", j)] | none => []))

def sessionToJson (s : ZyloAuthSession) : Json :=
  Json.obj [("user", userToJson s.user),
    ("accessToken", Json.str s.accessToken),
    ("refreshToken", Json.str s.refreshToken),
    ("expiresAt", Json.str s.expiresAt)]

structure LocalStorage where
  broken : Bool
  sessionEntry : Option String
  accessEntry : Option String
  refreshEntry : Option String

/-- `clearStoredSession`: removes the three keys; a throwing storage is
caught (and leaves the entries untouched). -/
def clearStoredSession (st : LocalStorage) : LocalStorage :=
  if st.broken then st
  else { st with sessionEntry := none, accessEntry := none, refreshEntry := none }

/-- `storeSession`: writes the session blob (JSON), the raw access token
and the raw refresh token; a throwing storage is caught and warned. -/
def storeSession (st : LocalStorage) (session : ZyloAuthSession) : LocalStorage :=
  if st.broken then st
  else { st with
    sessionEntry := some (jsonStringify (sessionToJson session)),
    accessEntry := some session.accessToken,
    refreshEntry := some session.refreshToken }

/-- `getStoredSession`: read the blob, parse it, clear-and-miss when the
`expiresAt` field is a past date. The result is the parsed JSON value
(the source casts it unchecked), paired with the storage as left behind
(the expiry path clears it). A `null` blob throws on the member access
`session.expiresAt`, which the `catch` turns into a miss. -/
def getStoredSession (st : LocalStorage) (now : Int) : Option Json × LocalStorage :=
  if st.broken then (none, st)
  else
    match st.sessionEntry with
    | none => (none, st)
    | some stored =>
      if stored = "" then (none, st)
      else
        match jsonParse stored with
        | none => (none, st)
        | some Json.null => (none, st)
        | some session =>
          if jsDateLt (jsGetProp session "expiresAt") now then
            (none, clearStoredSession st)
          else (some session, st)

/-! ## Auth service surface (`isAuthenticated`, `getAccessToken`, `signOut`) -/

/-- `authService.isAuthenticated()`: `getStoredSession() !== null`. -/
def isAuthenticated (st : LocalStorage) (now : Int) : Bool :=
  (getStoredSession st now).1.isSome

/-- `authService.getAccessToken()`: `getStoredSession()?.accessToken ?? null`. -/
def getAccessToken (st : LocalStorage) (now : Int) : Option Json :=
  match (getStoredSession st now).1 with
  | none => none
  | some session =>
    match jsGetProp session "accessToken" with
    | none => none
    | some Json.null => none
    | some v => some v

/-- `authService.signOut()`: read the stored session; when one is
present (truthy), best-effort call the backend sign-out endpoint with
any failure caught and logged (`backendOk = false` models the failing
call); then clear the store unconditionally. Returns the final storage
and whether the backend was called. -/
def authSignOut (st : LocalStorage) (now : Int) (_backendOk : Bool) : LocalStorage × Bool :=
  let (session, st1) := getStoredSession st now
  let called :=
    match session with
    | some v => !jsFalsy v
    | none => false
  (clearStoredSession st1, called)

/-- The `ZyloProvider.signOut` layer on top: after `authService.signOut`
resolves (it never rejects), the React session/user state is nulled. -/
structure ProviderAuthState where
  sessionState : Option Json
  userState : Option Json

def zyloProviderSignOut (st : LocalStorage) (_ps : ProviderAuthState) (now : Int)
    (backendOk : Bool) : LocalStorage × ProviderAuthState × Bool :=
  let (st2, called) := authSignOut st now backendOk
  (st2, ⟨none, none⟩, called)

/-! ## Token cache and `getValidToken` (authenticated client) -/

structure TokenCache where
  cachedToken : Option String
  tokenExpiry : Option Int

def EXPIRY_BUFFER : Int := 5 * 60 * 1000

/-- `clearTokenCache()`. -/
def clearTokenCache : TokenCache := ⟨none, none⟩

/-- What `authService.getSession()` hands back, as the client consumes
it: the access token and `new Date(session.expiresAt).getTime()`
(`none` = `NaN`, an unparseable date). -/
structure SessionView where
  accessToken : String
  expiresAtMs : Option Int

structure TokenFetch where
  result : Except String String
  cache : TokenCache
  consultedSessionManager : Bool

def fetchFreshToken (cache : TokenCache) (session : Option SessionView) : TokenFetch :=
  match session with
  | none =>
    { result := Except.error "No authenticated session. Please sign in first.",
      cache := cache, consultedSessionManager := true }
  | some s =>
    { result := Except.ok s.accessToken,
      cache := { cachedToken := some s.accessToken, tokenExpiry := s.expiresAtMs },
      consultedSessionManager := true }

/-- `getValidToken()`: serve from cache while
`cachedToken && tokenExpiry && now < tokenExpiry - EXPIRY_BUFFER`
(JavaScript truthiness: an empty-string token or a 0/`NaN` expiry is a
miss); otherwise consult the session manager and re-cache. -/
def getValidToken (cache : TokenCache) (now : Int) (session : Option SessionView) :
    TokenFetch :=
  match cache.cachedToken, cache.tokenExpiry with
  | some t, some e =>
    if t ≠ "" ∧ e ≠ 0 ∧ now < e - EXPIRY_BUFFER then
      { result := Except.ok t, cache := cache, consultedSessionManager := false }
    else fetchFreshToken cache session
  | _, _ => fetchFreshToken cache session

/-! ## The authenticated request (`AuthenticatedClient.request`)

Backend responses are modelled as a status plus the envelope fields of
their JSON body (`{success?, error?, message?}`, per the backend
contract; `none` = key absent). The `...data` spreads of the source
make body fields override the computed envelope, which `envelopeOk` /
`envelopeFail` reproduce, including the `||` chains on `error`. The
`data` payload field carries no logic and is not modelled. -/

structure RespBody where
  success : Option Bool
  error : Option String
  message : Option String

structure BackendResponse where
  status : Nat
  body : RespBody

/-- `response.ok`. -/
def respOk (r : BackendResponse) : Bool := 200 ≤ r.status && r.status < 300

structure ApiResult where
  success : Bool
  error : Option String
  message : Option String

/-- `{ success: true, data, ...data }`. -/
def envelopeOk (b : RespBody) : ApiResult :=
  { success := b.success.getD true, error := b.error, message := b.message }

/-- `{ success: false, error: data.error || data.message || fallback, ...data }`. -/
def envelopeFail (b : RespBody) (fallback : String) : ApiResult :=
  { success := b.success.getD false,
    error :=
      match b.error with
      | some e => some e
      | none =>
        match b.message with
        | some m => if m ≠ "" then some m else some fallback
        | none => some fallback,
    message := b.message }

structure RequestOutcome where
  result : ApiResult
  backendCalls : Nat
  cache : TokenCache

/-- `AuthenticatedClient.request`, per logical request: resolve a token
unless `skipAuth`; execute; on a 401 with auth in play, clear the token
cache, resolve a fresh token (its failure is the catch arm), and
re-issue the request exactly once, mapping the retry response through
the same envelope logic. `backend n` is the response to the `n`-th call
the backend receives; `sessionFirst`/`sessionRetry` are what the session
manager yields at the two possible consultations. Responses with
unparseable JSON bodies are outside the model. -/
def clientRequest (skipAuth : Bool) (cache : TokenCache) (now : Int)
    (sessionFirst sessionRetry : Option SessionView)
    (backend : Nat → BackendResponse) : RequestOutcome :=
  if skipAuth then
    let resp := backend 0
    if respOk resp then ⟨envelopeOk resp.body, 1, cache⟩
    else ⟨envelopeFail resp.body ("Request failed with status " ++ toString resp.status),
      1, cache⟩
  else
    let tf := getValidToken cache now sessionFirst
    match tf.result with
    | Except.error msg => ⟨⟨false, some msg, none⟩, 0, tf.cache⟩
    | Except.ok _ =>
      let resp := backend 0
      if resp.status = 401 then
        let tf2 := getValidToken clearTokenCache now sessionRetry
        match tf2.result with
        | Except.error _ =>
          ⟨⟨false, some "Authentication failed after retry", none⟩, 1, tf2.cache⟩
        | Except.ok _ =>
          let retryResp := backend 1
          if respOk retryResp then ⟨envelopeOk retryResp.body, 2, tf2.cache⟩
          else ⟨envelopeFail retryResp.body "Request failed", 2, tf2.cache⟩
      else if respOk resp then ⟨envelopeOk resp.body, 1, tf.cache⟩
      else ⟨envelopeFail resp.body ("Request failed with status " ++ toString resp.status),
        1, tf.cache⟩

/-! ## Route Guard (`LayoutProtection`, `ProtectedRoute`) -/

def PUBLIC_ROUTES : List String := ["/", "/login", "/signup", "/forgot-password"]

def AUTHENTICATED_HOME : String := "/home"

/-- One configured route against the current path, as the app's
`LayoutProtection` tests it inside `PUBLIC_ROUTES.some(...)`. -/
def matchesRoute (pathname route : String) : Bool :=
  pathname == route || (route != "/" && jsStartsWith pathname (route ++ "/"))

/-- The SDK `LayoutProtection` variant of the same predicate, with an
explicit early exact-only case for the root route. -/
def matchesRouteSdk (pathname route : String) : Bool :=
  if route == "/" then pathname == "/"
  else pathname == route || jsStartsWith pathname (route ++ "/")

def isPublicRoute (routes : List String) (pathname : String) : Bool :=
  routes.any (fun route => matchesRoute pathname route)

inductive GuardAction where
  | showLoading : GuardAction
  | render : GuardAction
  | redirect (target : String) : GuardAction
deriving DecidableEq

/-- `ProtectedRoute`: loading placeholder while auth resolves, redirect
to `redirectTo` without a user, render otherwise. -/
def protectedRoute (loading : Bool) (user : Bool) (redirectTo : String) : GuardAction :=
  if loading then GuardAction.showLoading
  else if !user then GuardAction.redirect redirectTo
  else GuardAction.render

/-- The app's `LayoutProtection` per navigation: `loading` and `user`
are the auth context state, `pathname` the current path. Authenticated
users on a public non-root path are redirected to `AUTHENTICATED_HOME`
(the component renders `null` while `router.push` fires); the root path
is explicitly exempt (`pathname !== '/'`). Protected paths delegate to
`ProtectedRoute` with the `/login` target. -/
def layoutProtection (loading : Bool) (user : Bool) (pathname : String) : GuardAction :=
  let isPub := isPublicRoute PUBLIC_ROUTES pathname
  if loading then GuardAction.showLoading
  else if isPub then
    (if user && pathname != "/" then GuardAction.redirect AUTHENTICATED_HOME
     else GuardAction.render)
  else protectedRoute loading user "/login"

/-! ## Round-trip of the JSON codec -/

theorem stringMk_data : ∀ s : String, String.mk s.data = s := fun ⟨_⟩ => rfl

theorem hexVal_lowHex (n : Nat) (h : n < 16) : hexVal (lowHexDigit n) = some n := by
  have key : ∀ m, m < 16 → hexVal (lowHexDigit m) = some m := by decide
  exact key n h

/-- Parsing one escaped character undoes `escChar`. -/
theorem parseStrAux_escChar (c : Char) (rest : List Char) :
    parseStrAux (escChar c ++ rest) =
      match parseStrAux rest with
      | some (cs, r) => some (c :: cs, r)
      | none => none := by
  by_cases hq : c = '"'
  · subst hq; rw [escChar, parseStrAux.eq_def]; simp +decide [shortUnescape]
  · by_cases hb : c = '\\'
    · subst hb; rw [escChar, parseStrAux.eq_def]; simp +decide [shortUnescape]
    · by_cases h8 : c = Char.ofNat 8
      · subst h8; rw [escChar, parseStrAux.eq_def]; simp +decide [shortUnescape]
      · by_cases ht : c = '\t'
        · subst ht; rw [escChar, parseStrAux.eq_def]; simp +decide [shortUnescape]
        · by_cases hn : c = '\n'
          · subst hn; rw [escChar, parseStrAux.eq_def]; simp +decide [shortUnescape]
          · by_cases h12 : c = Char.ofNat 12
            · subst h12; rw [escChar, parseStrAux.eq_def]; simp +decide [shortUnescape]
            · by_cases hr : c = '\r'
              · subst hr; rw [escChar, parseStrAux.eq_def]; simp +decide [shortUnescape]
              · by_cases hc : c.toNat < 0x20
                · have hd1 : c.toNat / 16 < 16 := by omega
                  have hd2 : c.toNat % 16 < 16 := Nat.mod_lt _ (by omega)
                  simp only [escChar, if_neg hq, if_neg hb, if_neg h8, if_neg ht, if_neg hn,
                    if_neg h12, if_neg hr, if_pos hc, List.cons_append, List.nil_append]
                  rw [parseStrAux.eq_def]
                  simp +decide only [hexVal_lowHex _ hd1, hexVal_lowHex _ hd2,
                    show hexVal '0' = some 0 from rfl]
                  rw [show ((0 * 16 + 0) * 16 + c.toNat / 16) * 16 + c.toNat % 16 = c.toNat by omega]
                  rw [if_pos (by omega : c.toNat < 55296 ∨ 57344 ≤ c.toNat)]
                  simp [Char.ofNat_toNat]
                · simp only [escChar, if_neg hq, if_neg hb, if_neg h8, if_neg ht, if_neg hn,
                    if_neg h12, if_neg hr, if_neg hc, List.cons_append, List.nil_append]
                  rw [parseStrAux.eq_def]
                  simp only [if_neg hq, if_neg hb, if_neg hc]

/-- Parsing an escaped character run stops at the closing quote. -/
theorem parseStrAux_escRun (cs : List Char) : ∀ rest : List Char,
    parseStrAux (cs.flatMap escChar ++ '"' :: rest) = some (cs, rest) := by
  induction cs with
  | nil => intro rest; rw [parseStrAux.eq_def]; simp
  | cons c t ih =>
      intro rest
      rw [List.flatMap_cons, List.append_assoc, parseStrAux_escChar, ih]

/-- The string codec round-trip. -/
theorem parseStrAux_escString (s : String) (rest : List Char) :
    parseStrAux (s.data.flatMap escChar ++ '"' :: rest) = some (s.data, rest) :=
  parseStrAux_escRun s.data rest

theorem takeWhile_append_stop {p : Char → Bool} :
    ∀ (l rest : List Char), l.all p = true →
      (∀ d r, rest = d :: r → p d = false) →
      (l ++ rest).takeWhile p = l ∧ (l ++ rest).dropWhile p = rest := by
  intro l rest hl hr
  induction l with
  | nil =>
      simp only [List.nil_append]
      cases rest with
      | nil => simp
      | cons c t => simp [List.takeWhile_cons, List.dropWhile_cons, hr c t rfl]
  | cons c t ih =>
      simp only [List.all_cons, Bool.and_eq_true] at hl
      have := ih hl.2
      simp [List.takeWhile_cons, List.dropWhile_cons, hl.1, this.1, this.2]

theorem numHead_facts (c : Char) (h : c = '-' ∨ isDig c = true) :
    jsonWsChar c = false ∧ c ≠ 'n' ∧ c ≠ 't' ∧ c ≠ 'f' ∧ c ≠ '"' ∧
      c ≠ '[' ∧ c ≠ '\x7b' ∧ c ≠ ']' ∧ c ≠ '\x7d' := by
  rcases h with h | h
  · subst h; refine ⟨by decide, by decide, by decide, by decide, by decide, by decide,
      by decide, by decide, by decide⟩
  · refine ⟨?_, ?_, ?_, ?_, ?_, ?_, ?_, ?_, ?_⟩
    · simp only [isDig, Bool.and_eq_true, decide_eq_true_eq] at h
      simp only [jsonWsChar, Bool.or_eq_false_iff, beq_eq_false_iff_ne]
      refine ⟨⟨⟨?_, ?_⟩, ?_⟩, ?_⟩ <;> (intro hh; subst hh; revert h; decide)
    all_goals (intro hh; subst hh; exact absurd h (by decide))

/-- A serialized well-formed value starts with a character that is not
whitespace and closes nothing. -/
theorem stringifyV_head (j : Json) (hwf : jsonWf j = true) :
    ∃ c t, stringifyV j = c :: t ∧ jsonWsChar c = false ∧ c ≠ ']' ∧ c ≠ '\x7d' := by
  cases j with
  | null => refine ⟨_, _, rfl, ?_, ?_, ?_⟩ <;> decide
  | bool b => cases b <;> (refine ⟨_, _, rfl, ?_, ?_, ?_⟩ <;> decide)
  | str s => refine ⟨_, _, rfl, ?_, ?_, ?_⟩ <;> decide
  | arr items => refine ⟨_, _, rfl, ?_, ?_, ?_⟩ <;> decide
  | obj fields => refine ⟨_, _, rfl, ?_, ?_, ?_⟩ <;> decide
  | num raw =>
      simp only [jsonWf, numRawOk, Bool.and_eq_true] at hwf
      obtain ⟨⟨_, _⟩, hhead⟩ := hwf
      cases hd : raw.data with
      | nil => rw [hd] at hhead; simp at hhead
      | cons c t =>
          rw [hd] at hhead
          simp only [Bool.or_eq_true, decide_eq_true_eq] at hhead
          obtain ⟨hws, _, _, _, _, _, _, hbr1, hbr2⟩ :=
            numHead_facts c (by tauto)
          exact ⟨c, t, by simp [stringifyV, hd], hws, hbr1, hbr2⟩

theorem skipWs_cons_id {c : Char} {r : List Char} (h : jsonWsChar c = false) :
    skipWs (c :: r) = c :: r := by simp [skipWs, h]

/-- Parsing a well-formed number lexeme recovers it, up to a stop character. -/
theorem parseValue_num (raw : String) (f : Nat) (rest : List Char)
    (hok : numRawOk raw = true) (hstop : numStop rest = true) :
    parseValue (f + 1) (raw.data ++ rest) = some (.num raw, rest) := by
  have h := hok
  simp only [numRawOk, Bool.and_eq_true] at h
  obtain ⟨⟨hwfn, hall⟩, hhead⟩ := h
  cases hd : raw.data with
  | nil => rw [hd] at hhead; simp at hhead
  | cons c t =>
      rw [hd] at hhead hall hwfn
      simp only [Bool.or_eq_true, decide_eq_true_eq] at hhead
      obtain ⟨hws, hn, ht, hf', hq, hbk, hbc, _, _⟩ := numHead_facts c hhead
      have hstop' : ∀ d r, rest = d :: r → numChar d = false := by
        intro d r hr
        rw [hr] at hstop
        simpa [numStop, Bool.not_eq_true'] using hstop
      have htw := takeWhile_append_stop (p := numChar) (c :: t) rest hall hstop'
      rw [parseValue.eq_def]
      simp only [List.cons_append] at htw ⊢
      simp only [skipWs_cons_id hws, if_neg hn, if_neg ht, if_neg hf', if_neg hq,
        if_neg hbk, if_neg hbc]
      rw [if_pos hhead]
      simp only [htw.1, htw.2, hwfn, if_pos]
      rw [← hd, stringMk_data]

/-- Parsing a serialized string literal recovers it. -/
theorem parseValue_str (s : String) (f : Nat) (rest : List Char) :
    parseValue (f + 1) (escString s ++ rest) = some (.str s, rest) := by
  have harg : escString s ++ rest = '"' :: (s.data.flatMap escChar ++ '"' :: rest) := by
    simp [escString]
  rw [harg, parseValue.eq_def]
  simp +decide only [skipWs_cons_id, parseStrAux_escString, stringMk_data]
  simp

theorem stringifyItems_cons_head (v : Json) (vs : List Json) {c : Char} {t : List Char}
    (hhead : stringifyV v = c :: t) :
    ∃ tl, stringifyItems (v :: vs) = c :: tl := by
  cases vs with
  | nil => exact ⟨t, by simp [stringifyItems, hhead]⟩
  | cons w ws => exact ⟨t ++ ',' :: stringifyItems (w :: ws), by simp [stringifyItems, hhead]⟩

theorem numStop_br (rest : List Char) : numStop (']' :: rest) = true := rfl
theorem numStop_bc (rest : List Char) : numStop ('\x7d' :: rest) = true := rfl
theorem numStop_comma (rest : List Char) : numStop (',' :: rest) = true := rfl

mutual
theorem rtV : ∀ (j : Json) (fuel : Nat) (rest : List Char),
    jsonWf j = true → (stringifyV j).length < fuel → numStop rest = true →
    parseValue fuel (stringifyV j ++ rest) = some (j, rest)
  | .null, fuel, rest, _, hf, _ => by
      cases fuel with
      | zero => simp [stringifyV] at hf
      | succ f =>
          rw [parseValue.eq_def]
          simp +decide [stringifyV, skipWs, jsonWsChar]
  | .bool b, fuel, rest, _, hf, _ => by
      cases fuel with
      | zero => cases b <;> simp [stringifyV] at hf
      | succ f =>
          rw [parseValue.eq_def]
          cases b <;> simp +decide [stringifyV, skipWs, jsonWsChar]
  | .num raw, fuel, rest, hwf, hf, hstop => by
      cases fuel with
      | zero => exact absurd hf (Nat.not_lt_zero _)
      | succ f =>
          simp only [jsonWf] at hwf
          exact parseValue_num raw f rest hwf hstop
  | .str s, fuel, rest, _, hf, _ => by
      cases fuel with
      | zero => exact absurd hf (Nat.not_lt_zero _)
      | succ f => exact parseValue_str s f rest
  | .arr [], fuel, rest, _, hf, _ => by
      cases fuel with
      | zero => simp [stringifyV] at hf
      | succ f =>
          rw [parseValue.eq_def]
          simp +decide [stringifyV, stringifyItems, skipWs, jsonWsChar]
  | .arr (v :: vs), fuel, rest, hwf, hf, _ => by
      cases fuel with
      | zero => simp [stringifyV] at hf
      | succ f =>
          simp only [jsonWf] at hwf
          have hwfv : jsonWf v = true := by
            simp only [jsonWfItems, Bool.and_eq_true] at hwf; exact hwf.1
          have hlen : (stringifyV (Json.arr (v :: vs))).length
              = (stringifyItems (v :: vs)).length + 2 := by
            simp [stringifyV]
          have key := rtItems v vs f rest hwf (by omega)
          obtain ⟨c, t, hhead, hws, hbr, _⟩ := stringifyV_head v hwfv
          obtain ⟨tl, htl⟩ := stringifyItems_cons_head v vs hhead
          have hsplit : stringifyItems (v :: vs) ++ ']' :: rest
              = c :: (tl ++ ']' :: rest) := by rw [htl]; simp
          have key2 : parseElems f (c :: (tl ++ ']' :: rest)) = some (v :: vs, rest) := by
            rw [← hsplit]; exact key
          have harg : stringifyV (.arr (v :: vs)) ++ rest
              = '[' :: (stringifyItems (v :: vs) ++ ']' :: rest) := by
            simp [stringifyV]
          rw [harg, parseValue.eq_def]
          simp +decide only []
          rw [skipWs_cons_id (by decide), hsplit]
          simp +decide [skipWs_cons_id hws, if_neg hbr, key2]
  | .obj [], fuel, rest, _, hf, _ => by
      cases fuel with
      | zero => simp [stringifyV] at hf
      | succ f =>
          rw [parseValue.eq_def]
          simp +decide [stringifyV, stringifyFields, skipWs, jsonWsChar]
  | .obj ((k, v) :: fs), fuel, rest, hwf, hf, _ => by
      cases fuel with
      | zero => simp [stringifyV] at hf
      | succ f =>
          simp only [jsonWf] at hwf
          have hlen : (stringifyV (Json.obj ((k, v) :: fs))).length
              = (stringifyFields ((k, v) :: fs)).length + 2 := by
            simp [stringifyV]
          have key := rtFields (k, v) fs f rest hwf (by omega)
          have hq : ∃ tl, stringifyFields ((k, v) :: fs) = '"' :: tl := by
            cases fs with
            | nil =>
                exact ⟨k.data.flatMap escChar ++ '"' :: ':' :: stringifyV v,
                  by simp [stringifyFields, escString]⟩
            | cons f2 fs2 =>
                exact ⟨k.data.flatMap escChar
                    ++ '"' :: ':' :: (stringifyV v ++ ',' :: stringifyFields (f2 :: fs2)),
                  by simp [stringifyFields, escString]⟩
          obtain ⟨tl, htl⟩ := hq
          have hsplit : stringifyFields ((k, v) :: fs) ++ '\x7d' :: rest
              = '"' :: (tl ++ '\x7d' :: rest) := by rw [htl]; simp
          have key2 : parseFields f ('"' :: (tl ++ '\x7d' :: rest))
              = some ((k, v) :: fs, rest) := by
            rw [← hsplit]; exact key
          have harg : stringifyV (.obj ((k, v) :: fs)) ++ rest
              = '\x7b' :: (stringifyFields ((k, v) :: fs) ++ '\x7d' :: rest) := by
            simp [stringifyV]
          rw [harg, parseValue.eq_def]
          simp +decide only []
          rw [skipWs_cons_id (by decide), hsplit]
          simp +decide [skipWs_cons_id (show jsonWsChar '"' = false by decide), key2]
  termination_by j _ _ _ _ _ => sizeOf j

theorem rtItems : ∀ (v : Json) (vs : List Json) (fuel : Nat) (rest : List Char),
    jsonWfItems (v :: vs) = true → (stringifyItems (v :: vs)).length + 1 < fuel →
    parseElems fuel (stringifyItems (v :: vs) ++ ']' :: rest) = some (v :: vs, rest)
  | v, [], fuel, rest, hwf, hf => by
      cases fuel with
      | zero => omega
      | succ f =>
          simp only [jsonWfItems, Bool.and_eq_true] at hwf
          have hlen : stringifyItems [v] = stringifyV v := by simp [stringifyItems]
          rw [hlen] at hf
          have hv := rtV v f (']' :: rest) hwf.1 (by omega) (numStop_br rest)
          rw [parseElems.eq_def, hlen]
          simp only [hv]
          simp +decide [skipWs, jsonWsChar]
  | v, w :: ws, fuel, rest, hwf, hf => by
      cases fuel with
      | zero => omega
      | succ f =>
          simp only [jsonWfItems, Bool.and_eq_true] at hwf
          have hlen : (stringifyItems (v :: w :: ws)).length
              = (stringifyV v).length + 1 + (stringifyItems (w :: ws)).length := by
            simp [stringifyItems]
            omega
          rw [hlen] at hf
          have hv := rtV v f (',' :: (stringifyItems (w :: ws) ++ ']' :: rest))
            hwf.1 (by omega) (numStop_comma _)
          have key := rtItems w ws f rest (by simp [jsonWfItems, hwf.2]) (by omega)
          have harg : stringifyItems (v :: w :: ws) ++ ']' :: rest
              = stringifyV v ++ (',' :: (stringifyItems (w :: ws) ++ ']' :: rest)) := by
            simp [stringifyItems]
          rw [parseElems.eq_def, harg]
          simp only [hv]
          rw [skipWs_cons_id (by decide)]
          simp +decide only [key]
          simp
  termination_by v vs _ _ _ _ => sizeOf v + sizeOf vs

theorem rtFields : ∀ (kv : String × Json) (fs : List (String × Json)) (fuel : Nat)
      (rest : List Char),
    jsonWfFields (kv :: fs) = true → (stringifyFields (kv :: fs)).length + 1 < fuel →
    parseFields fuel (stringifyFields (kv :: fs) ++ '\x7d' :: rest) = some (kv :: fs, rest)
  | (k, v), [], fuel, rest, hwf, hf => by
      cases fuel with
      | zero => omega
      | succ f =>
          simp only [jsonWfFields, Bool.and_eq_true] at hwf
          have hlen : (stringifyFields [(k, v)]).length
              = (escString k).length + 1 + (stringifyV v).length := by
            simp [stringifyFields]
            omega
          rw [hlen] at hf
          have hv := rtV v f ('\x7d' :: rest) hwf.1 (by omega) (numStop_bc rest)
          have harg : stringifyFields ((k, v) :: []) ++ '\x7d' :: rest
              = '"' :: (k.data.flatMap escChar
                  ++ '"' :: (':' :: (stringifyV v ++ '\x7d' :: rest))) := by
            simp [stringifyFields, escString]
          rw [parseFields.eq_def, harg]
          simp +decide only [skipWs_cons_id, parseStrAux_escString]
          rw [hv]
          simp +decide [skipWs, jsonWsChar, stringMk_data]
  | (k, v), f2 :: fs2, fuel, rest, hwf, hf => by
      cases fuel with
      | zero => omega
      | succ f =>
          simp only [jsonWfFields, Bool.and_eq_true] at hwf
          have hlen : (stringifyFields ((k, v) :: f2 :: fs2)).length
              = (escString k).length + 1 + (stringifyV v).length + 1
                  + (stringifyFields (f2 :: fs2)).length := by
            cases f2 with
            | mk k2 v2 =>
                simp [stringifyFields]
                omega
          rw [hlen] at hf
          have hv := rtV v f (',' :: (stringifyFields (f2 :: fs2) ++ '\x7d' :: rest))
            hwf.1 (by omega) (numStop_comma _)
          have key := rtFields f2 fs2 f rest (by
            cases f2 with
            | mk k2 v2 =>
                simp only [jsonWfFields, Bool.and_eq_true] at hwf ⊢
                exact hwf.2) (by omega)
          have harg : stringifyFields ((k, v) :: f2 :: fs2) ++ '\x7d' :: rest
              = '"' :: (k.data.flatMap escChar
                  ++ '"' :: (':' :: (stringifyV v
                      ++ ',' :: (stringifyFields (f2 :: fs2) ++ '\x7d' :: rest)))) := by
            cases f2 with
            | mk k2 v2 => simp [stringifyFields, escString]
          rw [parseFields.eq_def, harg]
          simp +decide only [skipWs_cons_id, parseStrAux_escString]
          rw [hv]
          simp +decide only []
          rw [skipWs_cons_id (by decide)]
          simp +decide only [key]
          simp [stringMk_data]
  termination_by kv fs _ _ _ _ => sizeOf kv + sizeOf fs
end

/-- JSON codec round-trip: `JSON.parse` inverts `JSON.stringify` on every
well-formed value. -/
theorem jsonParse_stringify (j : Json) (hwf : jsonWf j = true) :
    jsonParse (jsonStringify j) = some j := by
  have hv := rtV j ((stringifyV j).length + 1) [] hwf (by omega) (by rfl)
  simp only [List.append_nil] at hv
  simp only [jsonParse, jsonStringify, String.length]
  simp [hv, skipWs]

/-! ## Claims about the Route Guard -/

theorem matchesRoute_root {pathname : String} (h : matchesRoute pathname "/" = true) :
    pathname = "/" := by
  simp only [matchesRoute, Bool.or_eq_true, Bool.and_eq_true, beq_iff_eq, bne_iff_ne] at h
  rcases h with h | ⟨h, _⟩
  · exact h
  · exact absurd rfl h

/-- C4: a path is public iff it equals a configured prefix exactly or, for a
configured prefix other than the root, extends it past a `/`; the root prefix
matches only the root itself; and the SDK's route predicate agrees with the
app's. -/
theorem c4_public_path_classification :
    (∀ (routes : List String) (pathname : String),
      isPublicRoute routes pathname = true ↔
        ∃ route ∈ routes, pathname = route ∨
          (route ≠ "/" ∧ jsStartsWith pathname (route ++ "/") = true))
    ∧ (∀ pathname : String, matchesRoute pathname "/" = true → pathname = "/")
    ∧ (∀ pathname route : String, matchesRouteSdk pathname route = matchesRoute pathname route) := by
  refine ⟨?_, ?_, ?_⟩
  · intro routes pathname
    simp only [isPublicRoute, List.any_eq_true, matchesRoute, Bool.or_eq_true,
      Bool.and_eq_true, beq_iff_eq, bne_iff_ne]
  · intro pathname h
    exact matchesRoute_root h
  · intro pathname route
    by_cases hr : route = "/"
    · subst hr
      simp only [matchesRouteSdk, matchesRoute]
      by_cases hp : pathname = "/"
      · subst hp; decide
      · simp [hp]
    · have : (route != "/") = true := by simp [bne_iff_ne, hr]
      simp [matchesRouteSdk, matchesRoute, hr, this]

theorem c4_public_path_classification_witness :
    (∃ route ∈ ["/", "/login"], ("/login/reset" : String) = route ∨
      (route ≠ "/" ∧ jsStartsWith "/login/reset" (route ++ "/") = true))
    ∧ ("/" : String) = "/" :=
  ⟨(c4_public_path_classification.1 ["/", "/login"] "/login/reset").mp (by decide),
   c4_public_path_classification.2.1 "/" (by decide)⟩

/-- C3: the app route guard's decision table — an authenticated user renders
at the root, is redirected to the authenticated home from any non-root public
path, an anonymous user renders public paths and is redirected to the login
path from protected ones, and the loading state always shows the placeholder
and never redirects. -/
theorem c3_route_guard_decisions :
    (layoutProtection false true "/" = GuardAction.render)
    ∧ (∀ pathname, isPublicRoute PUBLIC_ROUTES pathname = true → pathname ≠ "/" →
        layoutProtection false true pathname = GuardAction.redirect AUTHENTICATED_HOME)
    ∧ (∀ pathname, isPublicRoute PUBLIC_ROUTES pathname = true →
        layoutProtection false false pathname = GuardAction.render)
    ∧ (∀ pathname, isPublicRoute PUBLIC_ROUTES pathname = false →
        layoutProtection false false pathname = GuardAction.redirect "/login")
    ∧ (∀ pathname user, layoutProtection true user pathname = GuardAction.showLoading) := by
  refine ⟨by decide, ?_, ?_, ?_, ?_⟩
  · intro pathname hpub hroot
    simp [layoutProtection, hpub, bne_iff_ne, hroot]
  · intro pathname hpub
    simp [layoutProtection, hpub]
  · intro pathname hpub
    simp [layoutProtection, hpub, protectedRoute]
  · intro pathname user
    by_cases hpub : isPublicRoute PUBLIC_ROUTES pathname = true <;>
      simp_all [layoutProtection, protectedRoute]

theorem c3_route_guard_decisions_witness :
    layoutProtection false true "/login" = GuardAction.redirect "/home"
    ∧ layoutProtection false false "/login" = GuardAction.render
    ∧ layoutProtection false false "/dashboard" = GuardAction.redirect "/login" :=
  ⟨by
    have h := c3_route_guard_decisions.2.1 "/login" (by decide) (by decide)
    simpa [AUTHENTICATED_HOME] using h,
   c3_route_guard_decisions.2.2.1 "/login" (by decide),
   c3_route_guard_decisions.2.2.2.1 "/dashboard" (by decide)⟩

/-! ## Claims about the token cache -/

/-- C5: with the five-minute buffer, a cached token whose expiry is strictly
more than five minutes away is served from cache without consulting the
session manager; one five minutes or less away is a miss — the session
manager is consulted and, when it yields a session, its token is returned and
cached together with its expiry. -/
theorem c5_token_cache_buffer (t : String) (e now : Int) (session : Option SessionView)
    (htok : t ≠ "") (hnow : 0 ≤ now) :
    (now + EXPIRY_BUFFER < e →
      getValidToken ⟨some t, some e⟩ now session =
        { result := Except.ok t, cache := ⟨some t, some e⟩,
          consultedSessionManager := false })
    ∧ (e ≤ now + EXPIRY_BUFFER →
      (getValidToken ⟨some t, some e⟩ now session).consultedSessionManager = true
      ∧ (∀ s, session = some s →
          getValidToken ⟨some t, some e⟩ now session =
            { result := Except.ok s.accessToken,
              cache := ⟨some s.accessToken, s.expiresAtMs⟩,
              consultedSessionManager := true })) := by
  constructor
  · intro hfresh
    have he : e ≠ 0 := by simp only [EXPIRY_BUFFER] at hfresh; omega
    have hlt : now < e - EXPIRY_BUFFER := by omega
    simp [getValidToken, htok, he, hlt]
  · intro hstale
    have hnl : ¬ now < e - EXPIRY_BUFFER := by omega
    constructor
    · simp only [getValidToken]
      rw [if_neg (by tauto)]
      cases session <;> simp [fetchFreshToken]
    · intro s hs
      subst hs
      simp only [getValidToken]
      rw [if_neg (by tauto)]
      simp [fetchFreshToken]

theorem c5_token_cache_buffer_witness :
    getValidToken ⟨some "tok", some 10360000⟩ 10000000 (some ⟨"fresh", some 99⟩) =
      { result := Except.ok "tok", cache := ⟨some "tok", some 10360000⟩,
        consultedSessionManager := false }
    ∧ getValidToken ⟨some "tok", some 10240000⟩ 10000000 (some ⟨"fresh", some 99⟩) =
      { result := Except.ok "fresh", cache := ⟨some "fresh", some 99⟩,
        consultedSessionManager := true } :=
  ⟨(c5_token_cache_buffer "tok" 10360000 10000000 (some ⟨"fresh", some 99⟩)
      (by decide) (by decide)).1 (by decide),
   ((c5_token_cache_buffer "tok" 10240000 10000000 (some ⟨"fresh", some 99⟩)
      (by decide) (by decide)).2 (by decide)).2 ⟨"fresh", some 99⟩ rfl⟩

/-! ## Claims about the Token Decoder and Identity Validator -/

theorem splitCharAux_length (sep : Char) :
    ∀ l : List Char, (splitCharAux sep l).length = l.count sep + 1 := by
  intro l
  induction l with
  | nil => rfl
  | cons c r ih =>
      by_cases hc : c = sep
      · simp [splitCharAux, hc, List.count_cons, ih]
      · cases h : splitCharAux sep r with
        | nil => rw [h] at ih; simp at ih
        | cons g gs =>
            rw [h] at ih
            simp only [List.length_cons] at ih
            simp [splitCharAux, hc, h, List.count_cons]
            omega

/-- C8: the token decoder yields "no claims" without raising on every
malformed input — any string whose split on `'.'` has other than three
segments (equivalently, not exactly two dots), and any three-segment
string whose middle segment fails base64 decoding or whose decoded
middle fails JSON parsing. (The decoder is a total function into
`Option`: no input throws.) -/
theorem c8_decode_malformed_degrades (token : String) :
    ((jsSplit '.' token).length = token.data.count '.' + 1)
    ∧ ((jsSplit '.' token).length ≠ 3 → decodeJwtPayload token = none)
    ∧ (∀ h m s, jsSplit '.' token = [h, m, s] →
        (atob (b64UrlToB64 m) = none ∨
          (∀ payload, atob (b64UrlToB64 m) = some payload → jsonParse payload = none)) →
        decodeJwtPayload token = none) := by
  refine ⟨?_, ?_, ?_⟩
  · simp [jsSplit, splitCharAux_length]
  · intro hlen
    unfold decodeJwtPayload
    rcases hsp : jsSplit '.' token with _ | ⟨a, _ | ⟨b, _ | ⟨c, _ | ⟨d, rest⟩⟩⟩⟩ <;>
      simp_all
  · intro h m s hsp hfail
    unfold decodeJwtPayload
    rw [hsp]
    rcases hfail with hfail | hfail
    · simp [hfail]
    · cases hb : atob (b64UrlToB64 m) with
      | none => simp [hb]
      | some payload => simp [hb, hfail payload hb]

theorem c8_decode_malformed_degrades_witness :
    decodeJwtPayload "nodots" = none ∧ decodeJwtPayload "aa.!!!.cc" = none :=
  ⟨(c8_decode_malformed_degrades "nodots").2.1 (by decide),
   (c8_decode_malformed_degrades "aa.!!!.cc").2.2 "aa" "!!!" "cc" (by rfl)
     (Or.inl (by rfl))⟩

theorem jsGetProp_some_obj {v : Json} {key : String} {w : Json}
    (h : jsGetProp v key = some w) : ∃ fields, v = Json.obj fields := by
  cases v <;> simp_all [jsGetProp]

theorem jsOptProp_some_obj {x : Option Json} {key : String} {w : Json}
    (h : jsOptProp x key = some w) : ∃ v, x = some v ∧ jsGetProp v key = some w := by
  match x with
  | none => simp [jsOptProp] at h
  | some Json.null => simp [jsOptProp] at h
  | some (Json.bool b) => exact ⟨_, rfl, h⟩
  | some (Json.num r) => exact ⟨_, rfl, h⟩
  | some (Json.str s) => exact ⟨_, rfl, h⟩
  | some (Json.arr l) => exact ⟨_, rfl, h⟩
  | some (Json.obj f) => exact ⟨_, rfl, h⟩

/-- C10: a well-formed token whose decoded payload carries an
`app_metadata.project_id` claim that is present but not a string makes both
tenant-claim extractors return "not found", and therefore both identity
validators return `true` for every expected tenant — the fail-open behavior
covers wrongly-typed claims. -/
theorem c10_nonstring_claim_fails_open (expected : Option String) (token : String)
    (payload pid : Json)
    (hdec : decodeJwtPayload token = some payload)
    (hpid : jsOptProp (jsGetProp payload "app_metadata") "project_id" = some pid)
    (hnotstr : ∀ s, pid ≠ Json.str s) :
    getProjectIdFromTokenSb token = none
    ∧ getProjectIdFromTokenSvc token = none
    ∧ validateProjectId expected token = true
    ∧ validateSessionProject expected token = true := by
  obtain ⟨am, ham, hget⟩ := jsOptProp_some_obj hpid
  obtain ⟨fields, hfields⟩ := jsGetProp_some_obj
    (show jsGetProp payload "app_metadata" = some am from ham)
  have hfalsy : jsFalsy payload = false := by rw [hfields]; rfl
  have hsb : getProjectIdFromTokenSb token = none := by
    unfold getProjectIdFromTokenSb
    rw [hdec]
    simp only [hfalsy, Bool.false_eq_true, if_false, hpid]
    cases pid with
    | str s => exact absurd rfl (hnotstr s)
    | null => rfl
    | bool b => rfl
    | num r => rfl
    | arr l => rfl
    | obj f => rfl
  have hsvc : getProjectIdFromTokenSvc token = none := by
    unfold getProjectIdFromTokenSvc
    rw [hdec]
    simp only [hfalsy, Bool.false_eq_true, if_false, hpid]
    cases pid with
    | str s => exact absurd rfl (hnotstr s)
    | null => rfl
    | bool b => rfl
    | num r => rfl
    | arr l => rfl
    | obj f => rfl
  refine ⟨hsb, hsvc, ?_, ?_⟩
  · unfold validateProjectId
    rw [hsb]
    split
    · rfl
    · simp [strTruthy]
  · unfold validateSessionProject
    rw [hsvc]
    split
    · rfl
    · simp [strTruthy]

theorem c10_nonstring_claim_fails_open_witness :
    getProjectIdFromTokenSb "hx.eyJhcHBfbWV0YWRhdGEiOnsicHJvamVjdF9pZCI6NDJ9fQ.sig" = none
    ∧ validateProjectId (some "prod")
        "hx.eyJhcHBfbWV0YWRhdGEiOnsicHJvamVjdF9pZCI6NDJ9fQ.sig" = true := by
  have h := c10_nonstring_claim_fails_open (some "prod")
    "hx.eyJhcHBfbWV0YWRhdGEiOnsicHJvamVjdF9pZCI6NDJ9fQ.sig"
    (Json.obj [("app_metadata", Json.obj [("project_id", Json.num "42")])])
    (Json.num "42") (by rfl) (by rfl) (fun s hs => Json.noConfusion hs)
  exact ⟨h.1, h.2.2.1⟩

/-- The SDK auth-service extractor agrees with the supabase one except that a
decoded empty-string claim is demoted to "not found". -/
theorem getProjectIdFromTokenSvc_eq (token : String) :
    getProjectIdFromTokenSvc token =
      match getProjectIdFromTokenSb token with
      | some claim => if claim ≠ "" then some claim else none
      | none => none := by
  unfold getProjectIdFromTokenSvc getProjectIdFromTokenSb
  cases decodeJwtPayload token with
  | none => rfl
  | some payload =>
      by_cases hf : jsFalsy payload = true
      · simp [hf]
      · simp only [Bool.not_eq_true] at hf
        simp only [hf, Bool.false_eq_true, if_false]
        cases hp : jsOptProp (jsGetProp payload "app_metadata") "project_id" with
        | none => rfl
        | some pid => cases pid <;> rfl

theorem c2_empty_claim_counterexample :
    validateProjectId (some "prod")
        "hx.eyJhcHBfbWV0YWRhdGEiOnsicHJvamVjdF9pZCI6IiJ9fQ.sig" = true
    ∧ validateRefSpec (some "prod")
        "hx.eyJhcHBfbWV0YWRhdGEiOnsicHJvamVjdF9pZCI6IiJ9fQ.sig" = false
    ∧ getProjectIdFromTokenSb
        "hx.eyJhcHBfbWV0YWRhdGEiOnsicHJvamVjdF9pZCI6IiJ9fQ.sig" = some "" :=
  ⟨by decide, by decide, by rfl⟩

/-- C2 (amended): both identity validators equal the reference definition
amended so that a decoded tenant claim that is the empty string passes
validation like an absent claim, instead of being compared against the
expected tenant. -/
theorem c2_validators_match_amended_reference (expected : Option String) (token : String) :
    validateProjectId expected token = validateRefAmended expected token
    ∧ validateSessionProject expected token = validateRefAmended expected token := by
  cases expected with
  | none =>
      constructor
      · simp [validateProjectId, validateRefAmended, strTruthy]
      · simp [validateSessionProject, validateRefAmended, strTruthy]
  | some e =>
      by_cases he : e = ""
      · subst he
        constructor
        · simp [validateProjectId, validateRefAmended, strTruthy]
        · simp [validateSessionProject, validateRefAmended, strTruthy]
      · by_cases hd : e = "dev"
        · subst hd
          constructor
          · simp [validateProjectId, validateRefAmended, strTruthy]
          · simp [validateSessionProject, validateRefAmended, strTruthy]
        · have hskip : ((strTruthy (some e) = false) || (some e == some "dev")) = false := by
            simp [strTruthy, he, hd]
          have hskipRef : ((some e = (none : Option String)) || (some e == some "")
              || (some e == some "dev")) = false := by
            simp [he, hd]
          constructor
          · unfold validateProjectId validateRefAmended
            rw [hskip, hskipRef]
            simp only [Bool.false_eq_true, if_false]
            cases hsb : getProjectIdFromTokenSb token with
            | none => simp [strTruthy]
            | some claim =>
                by_cases hc : claim = ""
                · subst hc; simp [strTruthy]
                · simp [strTruthy, hc, Option.getD]
          · unfold validateSessionProject validateRefAmended
            rw [hskip, hskipRef]
            simp only [Bool.false_eq_true, if_false]
            rw [getProjectIdFromTokenSvc_eq]
            cases hsb : getProjectIdFromTokenSb token with
            | none => simp [strTruthy]
            | some claim =>
                by_cases hc : claim = ""
                · subst hc; simp [strTruthy]
                · simp only [hc, ne_eq, not_false_eq_true, if_true, if_neg hc]
                  simp only [strTruthy, Option.getD]
                  by_cases hce : claim = e
                  · subst hce; simp [hc]
                  · simp [hc, hce, bne_iff_ne]

/-! ## Claims about the Session Store and sign-out -/

theorem getStoredSession_snd_broken (st : LocalStorage) (now : Int) :
    (getStoredSession st now).2.broken = st.broken := by
  unfold getStoredSession clearStoredSession
  repeat' split
  all_goals simp_all

/-- C6: sign-out clears every persisted session entry and nulls the provider's
session/user state for every starting storage and provider state, whether or
not the backend sign-out call succeeds; the backend failure is swallowed
(`zyloProviderSignOut` is total — nothing propagates). Stated for a working
storage (`broken = false`; a storage whose operations throw has nothing to
clear, and the source catches those throws too). -/
theorem c6_signout_always_clears (st : LocalStorage) (ps : ProviderAuthState) (now : Int)
    (backendOk : Bool) (hok : st.broken = false) :
    ((zyloProviderSignOut st ps now backendOk).1.sessionEntry = none
      ∧ (zyloProviderSignOut st ps now backendOk).1.accessEntry = none
      ∧ (zyloProviderSignOut st ps now backendOk).1.refreshEntry = none)
    ∧ (zyloProviderSignOut st ps now backendOk).2.1.sessionState = none
    ∧ (zyloProviderSignOut st ps now backendOk).2.1.userState = none := by
  have hb := getStoredSession_snd_broken st now
  rw [hok] at hb
  unfold zyloProviderSignOut authSignOut
  simp [clearStoredSession, hb]

theorem c6_signout_always_clears_witness :
    ((zyloProviderSignOut ⟨false, some "blob", some "at", some "rt"⟩ ⟨some Json.null, none⟩
        0 false).1.sessionEntry = none
      ∧ (zyloProviderSignOut ⟨false, some "blob", some "at", some "rt"⟩ ⟨some Json.null, none⟩
        0 false).1.accessEntry = none
      ∧ (zyloProviderSignOut ⟨false, some "blob", some "at", some "rt"⟩ ⟨some Json.null, none⟩
        0 false).1.refreshEntry = none)
    ∧ (zyloProviderSignOut ⟨false, some "blob", some "at", some "rt"⟩ ⟨some Json.null, none⟩
        0 false).2.1.sessionState = none
    ∧ (zyloProviderSignOut ⟨false, some "blob", some "at", some "rt"⟩ ⟨some Json.null, none⟩
        0 false).2.1.userState = none :=
  c6_signout_always_clears ⟨false, some "blob", some "at", some "rt"⟩ ⟨some Json.null, none⟩
    0 false rfl

/-- C9: a persisted session entry that is not valid JSON, or a storage whose
reads throw, degrades to "no session" without an exception: the load returns
`null` and leaves the storage untouched, `isAuthenticated()` is `false`, and
`getAccessToken()` is `null`. -/
theorem c9_corrupt_state_degrades (st : LocalStorage) (now : Int)
    (h : (∃ raw, st.sessionEntry = some raw ∧ jsonParse raw = none) ∨ st.broken = true) :
    (getStoredSession st now).1 = none
    ∧ (getStoredSession st now).2 = st
    ∧ isAuthenticated st now = false
    ∧ getAccessToken st now = none := by
  have key : getStoredSession st now = (none, st) := by
    rcases h with ⟨raw, hraw, hparse⟩ | hbroken
    · unfold getStoredSession
      by_cases hb : st.broken = true
      · simp [hb]
      · simp only [Bool.not_eq_true] at hb
        simp only [hb, Bool.false_eq_true, if_false, hraw]
        by_cases hre : raw = ""
        · simp [hre]
        · simp [hre, hparse]
    · unfold getStoredSession
      simp [hbroken]
  refine ⟨by rw [key], by rw [key], ?_, ?_⟩
  · unfold isAuthenticated
    rw [key]
    rfl
  · unfold getAccessToken
    rw [key]

theorem c9_corrupt_state_degrades_witness :
    (getStoredSession ⟨false, some "corrupt blob", none, none⟩ 5).1 = none
    ∧ (getStoredSession ⟨false, some "corrupt blob", none, none⟩ 5).2
        = ⟨false, some "corrupt blob", none, none⟩
    ∧ isAuthenticated ⟨false, some "corrupt blob", none, none⟩ 5 = false
    ∧ getAccessToken ⟨false, some "corrupt blob", none, none⟩ 5 = none :=
  c9_corrupt_state_degrades ⟨false, some "corrupt blob", none, none⟩ 5
    (Or.inl ⟨"corrupt blob", rfl, by rfl⟩)

theorem sessionToJson_wf (s : ZyloAuthSession)
    (hmeta : ∀ j, s.user.metadata = some j → jsonWf j = true) :
    jsonWf (sessionToJson s) = true := by
  obtain ⟨⟨uid, uemail, udn, upu, uev, upid, uca, uua, umeta⟩, at1, rt1, ea1⟩ := s
  simp only at hmeta
  cases udn <;> cases upu <;>
    (try cases hm : umeta) <;>
    simp_all [sessionToJson, userToJson, jsonWf, jsonWfFields]

theorem jsGetProp_sessionToJson_expiresAt (s : ZyloAuthSession) :
    jsGetProp (sessionToJson s) "expiresAt" = some (Json.str s.expiresAt) := rfl

theorem jsonStringify_session_ne_empty (s : ZyloAuthSession) :
    jsonStringify (sessionToJson s) ≠ "" := by
  unfold jsonStringify sessionToJson
  rw [stringifyV]
  intro h
  have := congrArg String.data h
  simp at this

/-- C7: the session store round-trips through its JSON serialization — after
`storeSession`, a load at a time by which the session's `expiresAt` has not
passed returns exactly the serialized session (field-for-field the stored
object) and leaves the store unchanged; a load after `expiresAt` has passed
returns "no session" and clears all three entries. Stated for a working
storage and a session whose free-form metadata carries well-formed JSON. -/
theorem c7_store_load_roundtrip (st : LocalStorage) (s : ZyloAuthSession) (now : Int)
    (hok : st.broken = false)
    (hmeta : ∀ j, s.user.metadata = some j → jsonWf j = true) :
    (jsDateLt (some (Json.str s.expiresAt)) now = false →
      getStoredSession (storeSession st s) now = (some (sessionToJson s), storeSession st s))
    ∧ (jsDateLt (some (Json.str s.expiresAt)) now = true →
      getStoredSession (storeSession st s) now = (none, clearStoredSession (storeSession st s))
      ∧ (clearStoredSession (storeSession st s)).sessionEntry = none
      ∧ (clearStoredSession (storeSession st s)).accessEntry = none
      ∧ (clearStoredSession (storeSession st s)).refreshEntry = none) := by
  have hparse := jsonParse_stringify (sessionToJson s) (sessionToJson_wf s hmeta)
  have hne := jsonStringify_session_ne_empty s
  have hstore : storeSession st s = { st with
      sessionEntry := some (jsonStringify (sessionToJson s)),
      accessEntry := some s.accessToken, refreshEntry := some s.refreshToken } := by
    unfold storeSession
    rw [hok]
    simp
  have hbroken : (storeSession st s).broken = false := by rw [hstore]; exact hok
  have hobj : sessionToJson s = Json.obj [("user", userToJson s.user),
      ("accessToken", Json.str s.accessToken), ("refreshToken", Json.str s.refreshToken),
      ("expiresAt", Json.str s.expiresAt)] := rfl
  have hget : jsGetProp (Json.obj [("user", userToJson s.user),
      ("accessToken", Json.str s.accessToken), ("refreshToken", Json.str s.refreshToken),
      ("expiresAt", Json.str s.expiresAt)]) "expiresAt" = some (Json.str s.expiresAt) := rfl
  have hsess : (storeSession st s).sessionEntry = some (jsonStringify (sessionToJson s)) := by
    rw [hstore]
  have hload : getStoredSession (storeSession st s) now =
      (if jsDateLt (some (Json.str s.expiresAt)) now then
        (none, clearStoredSession (storeSession st s))
      else (some (sessionToJson s), storeSession st s)) := by
    conv_lhs => rw [getStoredSession, hbroken]
    simp only [Bool.false_eq_true, if_false, hsess, if_neg hne, hparse]
    rw [hobj]
    simp [hget]
  constructor
  · intro hnotpast
    rw [hload, hnotpast]
    simp
  · intro hpast
    refine ⟨by rw [hload, hpast]; simp, ?_, ?_, ?_⟩ <;>
      simp [clearStoredSession, hbroken]

theorem c7_store_load_roundtrip_witness :
    getStoredSession
        (storeSession ⟨false, none, none, none⟩
          ⟨⟨"u1", "u@example.com", none, none, true, "tenant-a",
            "2024-01-01T00:00:00.000Z", "2024-01-01T00:00:00.000Z", none⟩,
            "at-1", "rt-1", "2099-01-01T00:00:00.000Z"⟩) 1700000000000
      = (some (sessionToJson ⟨⟨"u1", "u@example.com", none, none, true, "tenant-a",
            "2024-01-01T00:00:00.000Z", "2024-01-01T00:00:00.000Z", none⟩,
            "at-1", "rt-1", "2099-01-01T00:00:00.000Z"⟩),
          storeSession ⟨false, none, none, none⟩
            ⟨⟨"u1", "u@example.com", none, none, true, "tenant-a",
              "2024-01-01T00:00:00.000Z", "2024-01-01T00:00:00.000Z", none⟩,
              "at-1", "rt-1", "2099-01-01T00:00:00.000Z"⟩) :=
  (c7_store_load_roundtrip ⟨false, none, none, none⟩
    ⟨⟨"u1", "u@example.com", none, none, true, "tenant-a",
      "2024-01-01T00:00:00.000Z", "2024-01-01T00:00:00.000Z", none⟩,
      "at-1", "rt-1", "2099-01-01T00:00:00.000Z"⟩ 1700000000000 rfl
    (fun j hj => by simp at hj)).1 (by decide)

/-! ## Claims about the authenticated request client -/

theorem c1_retry_counterexample :
    clientRequest false ⟨none, none⟩ 0
        (some ⟨"tok", some 10⟩) (some ⟨"tok2", some 10⟩)
        (fun n => if n = 0 then ⟨401, ⟨none, none, none⟩⟩
          else ⟨500, ⟨some true, none, none⟩⟩)
      = { result := { success := true, error := some "Request failed", message := none },
          backendCalls := 2, cache := ⟨some "tok2", some 10⟩ } := by rfl

/-- C1 (amended): on a first 401 with auth in play, the client clears its
token cache and consults the session manager once more. When that yields a
session, the same request is re-issued exactly once — the backend receives
exactly two calls — and the overall `success` flag is the retry response
body's own `success` flag when the body carries one, otherwise whether the
retry status was 2xx (the spread of the body over the computed envelope lets
the body's flag override the status in both directions). When no fresh
session is obtainable, the result is a terminal
`{success: false, error: "Authentication failed after retry"}` after the
single original call. In every case no further retries are ever issued. -/
theorem c1_retry_semantics (cache : TokenCache) (now : Int)
    (sessionFirst sessionRetry : Option SessionView) (backend : Nat → BackendResponse)
    (h401 : (backend 0).status = 401)
    (htok : ∃ t, (getValidToken cache now sessionFirst).result = Except.ok t) :
    (∀ s, sessionRetry = some s →
      (clientRequest false cache now sessionFirst sessionRetry backend).backendCalls = 2
      ∧ (clientRequest false cache now sessionFirst sessionRetry backend).result.success
          = ((backend 1).body.success.getD (respOk (backend 1)))
      ∧ (clientRequest false cache now sessionFirst sessionRetry backend).cache
          = ⟨some s.accessToken, s.expiresAtMs⟩)
    ∧ (sessionRetry = none →
      (clientRequest false cache now sessionFirst sessionRetry backend).backendCalls = 1
      ∧ (clientRequest false cache now sessionFirst sessionRetry backend).result.success = false
      ∧ (clientRequest false cache now sessionFirst sessionRetry backend).result.error
          = some "Authentication failed after retry") := by
  obtain ⟨t, ht⟩ := htok
  have hbody : clientRequest false cache now sessionFirst sessionRetry backend =
      match (getValidToken clearTokenCache now sessionRetry).result with
      | Except.error _ =>
        ⟨⟨false, some "Authentication failed after retry", none⟩, 1,
          (getValidToken clearTokenCache now sessionRetry).cache⟩
      | Except.ok _ =>
        if respOk (backend 1) then ⟨envelopeOk (backend 1).body, 2,
          (getValidToken clearTokenCache now sessionRetry).cache⟩
        else ⟨envelopeFail (backend 1).body "Request failed", 2,
          (getValidToken clearTokenCache now sessionRetry).cache⟩ := by
    unfold clientRequest
    simp only [Bool.false_eq_true, if_false, ht, h401, if_pos]
  constructor
  · intro s hs
    subst hs
    have hretry : getValidToken clearTokenCache now (some s) =
        { result := Except.ok s.accessToken,
          cache := ⟨some s.accessToken, s.expiresAtMs⟩,
          consultedSessionManager := true } := rfl
    rw [hbody, hretry]
    by_cases hrok : respOk (backend 1) = true
    · simp [hrok, envelopeOk]
    · simp only [Bool.not_eq_true] at hrok
      simp [hrok, envelopeFail]
  · intro hs
    subst hs
    have hretry : getValidToken clearTokenCache now (none : Option SessionView) =
        { result := Except.error "No authenticated session. Please sign in first.",
          cache := clearTokenCache, consultedSessionManager := true } := rfl
    rw [hbody, hretry]
    exact ⟨rfl, rfl, rfl⟩

theorem c1_retry_semantics_witness :
    (clientRequest false ⟨none, none⟩ 0 (some ⟨"tok", some 10⟩) (some ⟨"tok2", some 20⟩)
        (fun n => if n = 0 then ⟨401, ⟨none, none, none⟩⟩
          else ⟨200, ⟨none, none, none⟩⟩)).backendCalls = 2
    ∧ (clientRequest false ⟨none, none⟩ 0 (some ⟨"tok", some 10⟩) (some ⟨"tok2", some 20⟩)
        (fun n => if n = 0 then ⟨401, ⟨none, none, none⟩⟩
          else ⟨200, ⟨none, none, none⟩⟩)).result.success = true
    ∧ (clientRequest false ⟨none, none⟩ 0 (some ⟨"tok", some 10⟩) (none : Option SessionView)
        (fun n => if n = 0 then ⟨401, ⟨none, none, none⟩⟩
          else ⟨200, ⟨none, none, none⟩⟩)).backendCalls = 1 := by
  have h1 := (c1_retry_semantics ⟨none, none⟩ 0 (some ⟨"tok", some 10⟩)
    (some ⟨"tok2", some 20⟩)
    (fun n => if n = 0 then ⟨401, ⟨none, none, none⟩⟩ else ⟨200, ⟨none, none, none⟩⟩)
    (by decide) ⟨"tok", by rfl⟩).1 ⟨"tok2", some 20⟩ rfl
  have h2 := (c1_retry_semantics ⟨none, none⟩ 0 (some ⟨"tok", some 10⟩)
    (none : Option SessionView)
    (fun n => if n = 0 then ⟨401, ⟨none, none, none⟩⟩ else ⟨200, ⟨none, none, none⟩⟩)
    (by decide) ⟨"tok", by rfl⟩).2 rfl
  exact ⟨h1.1, by rw [h1.2.1]; decide, h2.1⟩
